import Mathlib

/-!
Shallow embedding of the retrieval and synthesis engine of the
`aihpi/video-search` backend (`src/backend/app/services/search.py`,
`question_answering.py`, `llms.py`, `synthesis.py`), together with proofs
of the behavioural claims about it.

Numbers that Python stores as `float` are modelled as exact rationals
(`ℚ`); Python's `round(x, 2)` is modelled as exact round-half-to-even on
rationals.  The Chroma collection is modelled as the list of stored
segments (document text paired with its metadata, in storage order); the
nearest-neighbour `collection.query` call and the causal-LM `generate`
call are external capabilities and enter the embedded functions as
explicit arguments.
-/

namespace VideoSearch

/-- Python's `round(x)`: round half to even (banker's rounding), exact on `ℚ`. -/
def pyRound (x : ℚ) : ℤ :=
  if x - ⌊x⌋ < 1/2 then ⌊x⌋
  else if 1/2 < x - ⌊x⌋ then ⌊x⌋ + 1
  else if ⌊x⌋ % 2 = 0 then ⌊x⌋ else ⌊x⌋ + 1

/-- Python's `round(x, 2)` on an exact rational. -/
def round2 (x : ℚ) : ℚ := (pyRound (x * 100) : ℚ) / 100

/-- One stored segment of the Chroma collection: the document text plus the
metadata written by `index_transcript` (search.py lines 85-97):
`{transcript_id, start_time, end_time, id}`. -/
structure StoredSegment where
  id : String
  start_time : ℚ
  end_time : ℚ
  text : String
  transcript_id : String
deriving DecidableEq, Repr

/-- Model `app.models.search.QueryResult` (fields the services construct). -/
structure QueryResult where
  segment_id : String
  start_time : ℚ
  end_time : ℚ
  text : String
  transcript_id : String
  relevance_score : Option ℚ := none
  frame_timestamp : Option ℚ := none
  frame_path : Option String := none
deriving DecidableEq, Repr

/-- Model `app.models.search.SearchType`. -/
inductive SearchType where
  | KEYWORD
  | SEMANTIC
  | LLM
  | VISUAL
  | VISUAL_SEMANTIC
deriving DecidableEq, Repr

/-- The tagged search response union, flattened: keyword/semantic responses
leave `summary`, `not_addressed` and `model_id` at `none`; the LLM variant
fills them (`app.models.search.LLMSearchResponse`). -/
structure QuestionResponse where
  question : String
  transcript_id : Option String
  search_type : SearchType
  results : List QueryResult
  summary : Option String := none
  not_addressed : Option Bool := none
  model_id : Option String := none
deriving DecidableEq, Repr

/-- Decidable contiguous-sublist test on character lists (Python's `in`). -/
def listInfixOf (p : List Char) : List Char → Bool
  | [] => p.isEmpty
  | c :: cs => p.isPrefixOf (c :: cs) || listInfixOf p cs

/-- Test `question.lower() in doc.lower()` (search.py line 182); lowercasing
is applied character-wise as Python does on ASCII text. -/
def lowerContains (needle hay : String) : Bool :=
  listInfixOf (needle.toList.map Char.toLower) (hay.toList.map Char.toLower)

/-- Embedding of `collection.get(where=...)` where
`where_filter = {"transcript_id": tid} if tid else None` (search.py line 165):
a falsy transcript id (absent or empty) fetches every stored segment. -/
def whereGet (store : List StoredSegment) (transcript_id : Option String) :
    List StoredSegment :=
  match transcript_id with
  | some t => if t.isEmpty then store else store.filter (fun s => s.transcript_id == t)
  | none => store

/-- The `QueryResult` built from a stored segment with `relevance_score=None`
(search.py lines 194-204). -/
def toQueryResult (s : StoredSegment) : QueryResult :=
  { segment_id := s.id
    start_time := s.start_time
    end_time := s.end_time
    text := s.text
    transcript_id := s.transcript_id
    relevance_score := none }

/-- Python's `l[:k]` for an `int` bound `k` (negative bounds cut from the end,
clamped at zero). -/
def pySliceTo (k : ℤ) (l : List α) : List α :=
  if 0 ≤ k then l.take k.toNat else l.take (l.length - (-k).toNat)

/-- Empty-results keyword response (search.py lines 171-173, 187-189). -/
def emptyKeywordResponse (question : String) (transcript_id : Option String) :
    QuestionResponse :=
  { question := question, transcript_id := transcript_id,
    search_type := SearchType.KEYWORD, results := [] }

/-- Embedding of `SearchService._keyword_search` (search.py lines 156-217): fetch stored
segments (optionally scoped to a transcript), keep those whose text contains
the question case-insensitively with their indices, truncate with `[:top_k]`
only when `top_k` is truthy, and emit score-less results. -/
def keywordSearch (question : String) (transcript_id : Option String)
    (top_k : Option ℤ) (store : List StoredSegment) : QuestionResponse :=
  let segs := whereGet store transcript_id
  if segs = [] then emptyKeywordResponse question transcript_id
  else
    let filtered := segs.filter (fun s => lowerContains question s.text)
    if filtered = [] then emptyKeywordResponse question transcript_id
    else
      let truncated :=
        match top_k with
        | some k => if k ≠ 0 then pySliceTo k filtered else filtered
        | none => filtered
      { question := question, transcript_id := transcript_id,
        search_type := SearchType.KEYWORD,
        results := truncated.map toQueryResult }

/-- A semantic search result: the stored segment with
`relevance_score = round((1 - distance) * 100, 2)` (search.py lines 247-257). -/
def scoredResult (p : StoredSegment × ℚ) : QueryResult :=
  { segment_id := p.1.id
    start_time := p.1.start_time
    end_time := p.1.end_time
    text := p.1.text
    transcript_id := p.1.transcript_id
    relevance_score := some (round2 ((1 - p.2) * 100)) }

/-- Embedding of `SearchService._semantic_search` (search.py lines 219-270).
The backing store's `collection.query` reply is the explicit argument `qres`:
ranked documents paired with their native distances.  The source applies no
clamping to the scores. -/
def semanticSearch (question : String) (transcript_id : Option String)
    (qres : List (StoredSegment × ℚ)) : QuestionResponse :=
  if qres = [] then
    { question := question, transcript_id := transcript_id,
      search_type := SearchType.SEMANTIC, results := [] }
  else
    { question := question, transcript_id := transcript_id,
      search_type := SearchType.SEMANTIC,
      results := qres.map scoredResult }

/-- The structured answer `LLMService._parse_response` of services/llms.py
returns (`LlmAnswer`): no points field. -/
structure LlmAnswer where
  summary : String
  not_addressed : Bool
  model_id : Option String
deriving DecidableEq, Repr

/-- Embedding of `SearchService._llm_search` (search.py lines 272-335): run semantic
search first (evidence preview), then fetch all segments of the transcript;
if none exist, short-circuit with the fixed "No transcript found." response
without consulting the generation capability `gen`; otherwise sort the
segments by start time, synthesize with `gen`, and return the semantic
results alongside the answer fields. -/
def llmSearch (question : String) (transcript_id : Option String)
    (store : List StoredSegment) (qres : List (StoredSegment × ℚ))
    (gen : String → List QueryResult → LlmAnswer) : QuestionResponse :=
  let semResp := semanticSearch question transcript_id qres
  let allSegs := whereGet store transcript_id
  if allSegs = [] then
    { question := question, transcript_id := transcript_id,
      search_type := SearchType.LLM, results := [],
      summary := some "No transcript found.",
      not_addressed := some true,
      model_id := some "none" }
  else
    let sorted := (allSegs.map toQueryResult).mergeSort
      (fun a b => decide (a.start_time ≤ b.start_time))
    let answer := gen question sorted
    { question := question, transcript_id := transcript_id,
      search_type := SearchType.LLM, results := semResp.results,
      summary := some answer.summary,
      not_addressed := some answer.not_addressed,
      model_id := answer.model_id }

/-- Embedding of `SearchService.query_transcript` (search.py lines 133-154): dispatch on
the strategy tag; any tag other than KEYWORD/SEMANTIC/LLM logs a warning and
falls through to keyword search. -/
def queryTranscript (question : String) (transcript_id : Option String)
    (top_k : Option ℤ) (search_type : SearchType) (store : List StoredSegment)
    (qres : List (StoredSegment × ℚ))
    (gen : String → List QueryResult → LlmAnswer) : QuestionResponse :=
  match search_type with
  | SearchType.KEYWORD => keywordSearch question transcript_id top_k store
  | SearchType.SEMANTIC => semanticSearch question transcript_id qres
  | SearchType.LLM => llmSearch question transcript_id store qres gen
  | _ => keywordSearch question transcript_id top_k store

/-- Embedding of `QuestionAnsweringService._keyword_search` (question_answering.py lines
117-164): filters the documents alone (dropping their indices) and then reads
`metadatas[i]` at the position `i` of the match inside the *filtered* list,
pairing each matching text with the metadata of the `i`-th stored segment. -/
def qaKeywordSearch (question : String) (transcript_id : Option String)
    (store : List StoredSegment) : List QueryResult :=
  let segs := whereGet store transcript_id
  if segs = [] then []
  else
    let filteredDocs := (segs.map (fun s => s.text)).filter
      (fun d => lowerContains question d)
    if filteredDocs = [] then []
    else
      (segs.zip filteredDocs).map (fun p =>
        { segment_id := p.1.id
          start_time := p.1.start_time
          end_time := p.1.end_time
          text := p.2
          transcript_id := p.1.transcript_id
          relevance_score := none })

/-- Embedding of `QuestionAnsweringService._semantic_search` (question_answering.py lines
166-211), same scoring formula as search.py. -/
def qaSemanticSearch (question : String) (transcript_id : Option String)
    (qres : List (StoredSegment × ℚ)) : List QueryResult :=
  (semanticSearch question transcript_id qres).results

/-- Embedding of `QuestionAnsweringService.query_transcript` (question_answering.py lines
96-115).  The fallback branch executes
`self._keyword_search(question, transcript_id, top_k)`, but that method only
accepts `(question, transcript_id)`, so the call raises `TypeError`;
the raised exception is modelled as the `Except.error` value. -/
def qaQueryTranscript (question : String) (transcript_id : Option String)
    (top_k : Option ℤ) (search_type : String) (store : List StoredSegment)
    (qres : List (StoredSegment × ℚ)) : Except String (List QueryResult) :=
  if search_type = "keyword" then
    Except.ok (qaKeywordSearch question transcript_id store)
  else if search_type = "semantic" then
    Except.ok (qaSemanticSearch question transcript_id qres)
  else
    Except.error
      "TypeError: _keyword_search takes 3 positional arguments but 4 were given"

/-! ## Answer parser (`src/backend/app/services/synthesis.py`) -/

/-- Model `app.models.synthesis.AnswerPoint`. -/
structure AnswerPoint where
  content : String
  timestamp_seconds : ℚ
deriving DecidableEq, Repr

/-- The structured answer `synthesis.py`'s `_parse_response` constructs. -/
structure Answer where
  summary : String
  points : List AnswerPoint
  not_addressed : Bool
  model_id : Option String
deriving DecidableEq, Repr

/-- A segment dict as consumed by the synthesizer: only the keys
`_parse_response` reads. -/
structure SynSegment where
  start_time : ℚ
  end_time : ℚ
  text : String
deriving DecidableEq, Repr

/-- Python's `\s` on ASCII text. -/
def isPyWS (c : Char) : Bool :=
  c = ' ' || c = '\t' || c = '\n' || c = '\r' || c = '\x0b' || c = '\x0c'

/-- Python's `str.strip()` on a character list. -/
def pyStripChars (l : List Char) : List Char :=
  ((l.dropWhile isPyWS).reverse.dropWhile isPyWS).reverse

/-- Python's `str.strip()`. -/
def pyStrip (s : String) : String := String.mk (pyStripChars s.toList)

/-- Python's `str.split()` (split on whitespace runs, no empty words). -/
def pyWordsAux : List Char → List Char → List (List Char)
  | [], acc => if acc.isEmpty then [] else [acc.reverse]
  | c :: cs, acc =>
    if isPyWS c then
      if acc.isEmpty then pyWordsAux cs [] else acc.reverse :: pyWordsAux cs []
    else pyWordsAux cs (c :: acc)

/-- Whitespace normalization `" ".join(s.split())` (synthesis.py line 284). -/
def pyNormalizeWS (s : String) : String :=
  String.mk (List.intercalate [' '] (pyWordsAux s.toList []))

/-- Match `\s*\n` against a prefix of `l` with the backtracking semantics of
`re` (greedy `\s*`, so the newline actually consumed is the last newline of
the leading whitespace run); returns the remainder after the match. -/
def afterWsNl : List Char → Option (List Char)
  | [] => none
  | c :: cs =>
    if isPyWS c then
      match afterWsNl cs with
      | some r => some r
      | none => if c = '\n' then some cs else none
    else none

/-- Embedding of `re.search(header + r"\s*\n...", s)`: the leftmost occurrence of the
literal `header` that is followed by `\s*\n`; returns the text after the
matched newline. -/
def reSearchHeader (header : List Char) : List Char → Option (List Char)
  | [] => none
  | c :: cs =>
    if header.isPrefixOf (c :: cs) then
      match afterWsNl (List.drop header.length (c :: cs)) with
      | some r => some r
      | none => reSearchHeader header cs
    else reSearchHeader header cs

/-- The lazy group `(.*?)(?=delim|$)` with `re.DOTALL` on input with no
trailing newline: everything before the first occurrence of `delim`, or the
whole text if `delim` never occurs. -/
def upToDelim (delim : List Char) : List Char → List Char
  | [] => []
  | c :: cs => if delim.isPrefixOf (c :: cs) then [] else c :: upToDelim delim cs

/-- The lazy group `(.*?)(?:\n|$)` with `re.DOTALL`: everything before the
first newline. -/
def upToNl (l : List Char) : List Char := l.takeWhile (fun c => c ≠ '\n')

/-- Position just after the last `'\n'` of `l` (0 if `l` has no newline). -/
def lastNlSplit : List Char → ℕ
  | [] => 0
  | c :: cs =>
    let r := lastNlSplit cs
    if r = 0 then (if c = '\n' then 1 else 0) else r + 1

/-- Value of a digit run, e.g. `['4','2'] ↦ 42`. -/
def digitsVal (ds : List Char) : ℕ :=
  ds.foldl (fun n c => 10 * n + (c.toNat - 48)) 0

/-- Match `timestamp:\s*(\d+\.?\d*)s\)` directly after the opening
parenthesis; returns the parsed rational and the remainder after `)`. -/
def parseTimestampTail (l : List Char) : Option (ℚ × List Char) :=
  if ("timestamp:".toList).isPrefixOf l then
    let l1 := (l.drop "timestamp:".length).dropWhile isPyWS
    let d1 := l1.takeWhile Char.isDigit
    if d1.isEmpty then none
    else
      let l2 := l1.drop d1.length
      let frac :=
        match l2 with
        | '.' :: rest => (rest.takeWhile Char.isDigit, rest.dropWhile Char.isDigit)
        | _ => ([], l2)
      match frac.2 with
      | 's' :: ')' :: rest =>
        some ((digitsVal d1 : ℚ) + (digitsVal frac.1 : ℚ) / ((10 : ℚ) ^ frac.1.length), rest)
      | _ => none
  else none

/-- Attempt a match of the bullet pattern
`-\s*([^(\n]+)\s*\(timestamp:\s*(\d+\.?\d*)s\)` at a position whose `-` has
just been consumed (`r` is the text after it): the candidate `(` is the first
one in `r` (the content class excludes `(`); every character up to the last
newline before it must be whitespace (absorbed by `\s*`), and at least one
character must remain for the content group.  Returns the stripped content,
the timestamp and the remainder after the match. -/
def tryBulletBody (r : List Char) : Option (String × ℚ × List Char) :=
  let pre := r.takeWhile (fun c => c ≠ '(')
  if pre.length = r.length then none
  else
    let afterParen := r.drop (pre.length + 1)
    let j := lastNlSplit pre
    if (pre.take j).all isPyWS ∧ j < pre.length then
      match parseTimestampTail afterParen with
      | some (ts, rest) => some (String.mk (pyStripChars (pre.drop j)), ts, rest)
      | none => none
    else none

/-- The `re.finditer` scan for the bullet pattern: fuelled left-to-right scan;
on a successful match the scan resumes after the match, otherwise at the next
character.  The fuel `l.length` suffices since every step consumes at least
one character. -/
def findBulletsAux : ℕ → List Char → List (String × ℚ)
  | 0, _ => []
  | _ + 1, [] => []
  | fuel + 1, c :: cs =>
    if c = '-' then
      match tryBulletBody cs with
      | some (content, ts, rest) => (content, ts) :: findBulletsAux fuel rest
      | none => findBulletsAux fuel cs
    else findBulletsAux fuel cs

/-- All bullet matches of the KEY POINTS block, in order. -/
def findBullets (l : List Char) : List (String × ℚ) := findBulletsAux l.length l

/-- Python's `str.startswith((h1, h2, ...))`. -/
def pyStartsWithAny (s : String) (hs : List String) : Bool :=
  hs.any (fun h => h.toList.isPrefixOf s.toList)

/-- The SUMMARY extraction of `_parse_response` (synthesis.py lines 276-284
and fallback lines 322-330), on the stripped response `r`:
`re.search(r"SUMMARY:\s*\n(.*?)(?=KEY POINTS:|$)", ...)` — note the lookahead
stops only at `KEY POINTS:`, not at `COMPLETENESS:` — whitespace-normalized;
when empty, fall back to the first paragraph, or to a generic sentence naming
the question. -/
def parseSummary (r : List Char) (question : String) : String :=
  let summary0 : String :=
    match reSearchHeader "SUMMARY:".toList r with
    | some rest =>
      pyNormalizeWS (String.mk (pyStripChars (upToDelim "KEY POINTS:".toList rest)))
    | none => ""
  if summary0.isEmpty then
    let firstPara := String.mk (pyStripChars (upToDelim "\n\n".toList r))
    if ¬firstPara.isEmpty ∧
        ¬pyStartsWithAny firstPara ["SUMMARY:", "KEY POINTS:", "COMPLETENESS:"] then
      firstPara
    else "Analysis of the video transcript regarding: " ++ question
  else summary0

/-- The timestamp validation of `_parse_response` (synthesis.py lines
302-306): Python's `segments and ts >= segments[0]["start_time"] and
ts <= segments[-1]["end_time"]`. -/
def inSegmentRange (segments : List SynSegment) (ts : ℚ) : Bool :=
  match segments.head?, segments.getLast? with
  | some s0, some sl => decide (s0.start_time ≤ ts) && decide (ts ≤ sl.end_time)
  | _, _ => false

/-- The KEY POINTS bullet matches of `_parse_response` (synthesis.py lines
287-299): `re.search(r"KEY POINTS:\s*\n(.*?)(?=COMPLETENESS:|$)")`, stripped,
scanned with the bullet pattern. -/
def rawKeyPoints (r : List Char) : List (String × ℚ) :=
  match reSearchHeader "KEY POINTS:".toList r with
  | some rest => findBullets (pyStripChars (upToDelim "COMPLETENESS:".toList rest))
  | none => []

/-- The points of `_parse_response` (synthesis.py lines 297-309 and fallback
lines 332-339): bullets whose timestamp passes `inSegmentRange`, and, when
none survive but segments exist, one generic point at the first segment's
start time. -/
def parsePoints (r : List Char) (segments : List SynSegment) : List AnswerPoint :=
  let points0 : List AnswerPoint :=
    ((rawKeyPoints r).filter (fun p => inSegmentRange segments p.2)).map
      (fun p => { content := p.1, timestamp_seconds := p.2 })
  if points0.isEmpty ∧ ¬segments.isEmpty then
    match segments.head? with
    | some s0 =>
      [{ content := "Relevant information found in the transcript",
         timestamp_seconds := s0.start_time }]
    | none => points0
  else points0

/-- The COMPLETENESS extraction of `_parse_response` (synthesis.py lines
311-319): group up to the next newline, stripped, uppercased; `not_addressed`
iff it contains `NOT FOUND` or `NOT_FOUND`. -/
def parseNotAddressed (r : List Char) : Bool :=
  match reSearchHeader "COMPLETENESS:".toList r with
  | some rest =>
    let cstr := (pyStripChars (upToNl rest)).map Char.toUpper
    listInfixOf "NOT FOUND".toList cstr || listInfixOf "NOT_FOUND".toList cstr
  | none => false

/-- Embedding of `LLMService._parse_response` of synthesis.py (lines 267-346),
assembled from the section extractors above; the input is stripped first. -/
def parseResponse (response question : String) (segments : List SynSegment)
    (active_model_id : Option String) : Answer :=
  let r := pyStripChars response.toList
  { summary := parseSummary r question
    points := parsePoints r segments
    not_addressed := parseNotAddressed r
    model_id := active_model_id }

/-! ## Model registry (`src/backend/app/services/llms.py`) -/

/-- One entry of `LLMService._models` (llms.py lines 119-127); the in-memory
model/tokenizer handles are abstracted away, `loaded` tracks them. -/
structure ModelEntry where
  id : String
  name : String
  hf_model_id : String
  requires_gpu : Bool
  loaded : Bool
deriving DecidableEq, Repr

/-- The mutable class state of `LLMService`. -/
structure RegistryState where
  models : List ModelEntry
  active_model_id : Option String
  has_gpu : Bool
deriving DecidableEq, Repr

/-- Registered model ids, in registration (dict insertion) order. -/
def registeredIds (s : RegistryState) : List String :=
  s.models.map (fun e => e.id)

/-- First registry entry with the given id. -/
def lookupEntry (s : RegistryState) (model_id : String) : Option ModelEntry :=
  s.models.find? (fun e => e.id == model_id)

/-- Embedding of `LLMService._register_model` (llms.py lines 107-130):
a duplicate id is a no-op returning failure, otherwise a metadata-only entry
with `loaded=False` is inserted. -/
def registerModel (s : RegistryState) (model_id display_name hf_model_id : String)
    (requires_gpu : Bool) : Bool × RegistryState :=
  if model_id ∈ registeredIds s then (false, s)
  else (true, { s with models := s.models ++
    [{ id := model_id, name := display_name, hf_model_id := hf_model_id,
       requires_gpu := requires_gpu, loaded := false }] })

/-- Update of the registry dict setting the entry named `a` to
`loaded := b` (an in-place mutation of `model_info` in the source). -/
def setLoaded (models : List ModelEntry) (a : String) (b : Bool) : List ModelEntry :=
  models.map (fun e => if e.id = a then { e with loaded := b } else e)

/-- Embedding of `LLMService.unload_active_model` (llms.py lines 207-230):
clears the active entry's handles and `loaded` flag and resets the active id;
a no-op when nothing is active. -/
def unloadActiveModel (s : RegistryState) : RegistryState :=
  match s.active_model_id with
  | none => s
  | some aid =>
    { s with
      models := setLoaded s.models aid false,
      active_model_id := none }

/-- The `# Unload current model` step of `load_model` (llms.py lines
143-145): `if self._active_model_id and self._active_model_id != model_id:`
— note Python truthiness, an empty-string active id would not unload. -/
def loadUnloadStep (s : RegistryState) (model_id : String) : RegistryState :=
  match s.active_model_id with
  | some aid => if ¬aid.isEmpty ∧ aid ≠ model_id then unloadActiveModel s else s
  | none => s

/-- Embedding of `LLMService.load_model` (llms.py lines 132-205).  Whether the
external HuggingFace fetch succeeds is the parameter `fetchOk` (the `except`
branch returns `False` without touching the registry further).  Note that the
`requires_gpu and not has_gpu` check at lines 140-141 only logs an error and
falls through. -/
def loadModel (s : RegistryState) (model_id : String) (fetchOk : Bool) :
    Bool × RegistryState :=
  match lookupEntry s model_id with
  | none => (false, s)
  | some e =>
    let s1 := loadUnloadStep s model_id
    if e.loaded then (true, { s1 with active_model_id := some model_id })
    else if fetchOk then
      (true,
        { s1 with
          models := setLoaded s1.models model_id true,
          active_model_id := some model_id })
    else (false, s1)

/-- Embedding of `LLMService._register_available_models` (llms.py lines
53-105): the CPU-capable catalog, the gated model only with a HuggingFace
token, and the GPU-requiring `mistral-7b` only when a GPU is present. -/
def registerAvailableModels (s : RegistryState) (hf_token : Bool) : RegistryState :=
  let s1 := (registerModel s "tinyllama" "TinyLlama (1.1B)"
    "TinyLlama/TinyLlama-1.1B-Chat-v1.0" false).2
  let s2 := (registerModel s1 "qwen-2.5" "Qwen 2.5 (0.5B)"
    "Qwen/Qwen2.5-0.5B-Instruct" false).2
  let s3 := (registerModel s2 "phi-2" "Phi-2 (2.7B)" "microsoft/phi-2" false).2
  let s4 := if hf_token then
      (registerModel s3 "gemma-2b" "Gemma 2 (2B)" "google/gemma-2-2b-it" false).2
    else s3
  let s5 := (registerModel s4 "stablelm-2" "StableLM 2 (1.6B)"
    "stabilityai/stablelm-2-1_6b-chat" false).2
  let s6 := (registerModel s5 "smollm2" "SmolLM2 (1.7B)"
    "HuggingFaceTB/SmolLM2-1.7B-Instruct" false).2
  if s6.has_gpu then
    (registerModel s6 "mistral-7b" "Mistral 7B Instruct"
      "mistralai/Mistral-7B-Instruct-v0.2" true).2
  else s6

/-- Embedding of `LLMService._initialize` (llms.py lines 39-51): register the
catalog, pick the default model id (env `DEFAULT_LLM`, falling back to the
first registered id), then load it.  `load_model(None)` in the source hits the
not-registered branch and changes nothing, modelled by the `none` case. -/
def initState (has_gpu hf_token : Bool) (default_llm : String) (fetchOk : Bool) :
    RegistryState :=
  let s0 : RegistryState :=
    { models := [], active_model_id := none, has_gpu := has_gpu }
  let s1 := registerAvailableModels s0 hf_token
  let s2 :=
    { s1 with active_model_id :=
        if default_llm ∈ registeredIds s1 then some default_llm
        else
          match registeredIds s1 with
          | [] => s1.active_model_id
          | i :: _ => some i }
  match s2.active_model_id with
  | some aid => (loadModel s2 aid fetchOk).2
  | none => s2

/-- Registry states reachable in the running service: initialization followed
by any sequence of `select_model` (= `load_model`, llms.py line 358) and
`unload_active_model` calls; read-only operations do not change state. -/
inductive Reachable : RegistryState → Prop where
  | init : ∀ has_gpu hf_token default_llm fetchOk,
      Reachable (initState has_gpu hf_token default_llm fetchOk)
  | select : ∀ s model_id fetchOk, Reachable s →
      Reachable (loadModel s model_id fetchOk).2
  | unload : ∀ s, Reachable s → Reachable (unloadActiveModel s)

/-- Registry invariant: registered ids are distinct and non-empty, a loaded
entry is the active one, and without a GPU no registered entry requires a
GPU. -/
def RegInv (s : RegistryState) : Prop :=
  (registeredIds s).Nodup ∧
  (∀ e ∈ s.models, e.id.isEmpty = false) ∧
  (∀ e ∈ s.models, e.loaded = true → s.active_model_id = some e.id) ∧
  (s.has_gpu = false → ∀ e ∈ s.models, e.requires_gpu = false)

/-! ## Properties of the rounding function -/

theorem floor_le_pyRound (x : ℚ) : ⌊x⌋ ≤ pyRound x := by
  unfold pyRound; split_ifs <;> omega

theorem pyRound_le_floor_add_one (x : ℚ) : pyRound x ≤ ⌊x⌋ + 1 := by
  unfold pyRound; split_ifs <;> omega

theorem pyRound_cast_le (x : ℚ) : (pyRound x : ℚ) ≤ x + 1/2 := by
  have hf := Int.floor_le x
  have hf2 := Int.lt_floor_add_one x
  unfold pyRound
  split_ifs <;> push_cast <;> linarith

theorem le_pyRound_cast (x : ℚ) : x - 1/2 ≤ (pyRound x : ℚ) := by
  have hf := Int.floor_le x
  have hf2 := Int.lt_floor_add_one x
  unfold pyRound
  split_ifs <;> push_cast <;> linarith

theorem pyRound_mono {x y : ℚ} (h : x ≤ y) : pyRound x ≤ pyRound y := by
  rcases lt_or_eq_of_le (Int.floor_mono h) with hf | hf
  · calc pyRound x ≤ ⌊x⌋ + 1 := pyRound_le_floor_add_one x
      _ ≤ ⌊y⌋ := by omega
      _ ≤ pyRound y := floor_le_pyRound y
  · have hx := Int.floor_le x
    have hy := Int.floor_le y
    unfold pyRound
    rw [hf]
    split_ifs <;> first | omega | (exfalso; rw [hf] at *; linarith)

theorem round2_mono {x y : ℚ} (h : x ≤ y) : round2 x ≤ round2 y := by
  have h1 : x * 100 ≤ y * 100 := by linarith
  have h2 : ((pyRound (x * 100) : ℚ)) ≤ ((pyRound (y * 100) : ℚ)) := by
    exact_mod_cast pyRound_mono h1
  unfold round2
  linarith

theorem round2_nonneg {x : ℚ} (hx : 0 ≤ x) : 0 ≤ round2 x := by
  have h := le_pyRound_cast (x * 100)
  have h1 : (-1 : ℚ) < (pyRound (x * 100) : ℚ) := by linarith
  have h2 : (-1 : ℤ) < pyRound (x * 100) := by exact_mod_cast h1
  have h3 : (0 : ℚ) ≤ (pyRound (x * 100) : ℚ) := by exact_mod_cast (by omega : 0 ≤ pyRound (x * 100))
  unfold round2
  linarith

theorem round2_le_hundred {x : ℚ} (hx : x ≤ 100) : round2 x ≤ 100 := by
  have h := pyRound_cast_le (x * 100)
  have h1 : (pyRound (x * 100) : ℚ) < 10001 := by linarith
  have h2 : pyRound (x * 100) < 10001 := by exact_mod_cast h1
  have h3 : (pyRound (x * 100) : ℚ) ≤ 10000 := by exact_mod_cast (by omega : pyRound (x * 100) ≤ 10000)
  unfold round2
  linarith

/-! ## C1: semantic relevance scores -/

/-- The semantic results are the scored query reply, whether or not the empty
branch is taken. -/
theorem semanticSearch_results (question : String) (tid : Option String)
    (qres : List (StoredSegment × ℚ)) :
    (semanticSearch question tid qres).results = qres.map scoredResult := by
  by_cases h : qres = [] <;> simp [semanticSearch, h]

/-- Counterexample to claim C1 as stated: with a backing-store distance of
`2` (cosine distance ranges over `[0, 2]`), the SEMANTIC strategy emits
`relevance_score = -100`, outside `[0, 100]` — the code applies no
clamping. -/
theorem semantic_score_unclamped_cex :
    ((semanticSearch "q" (some "t1")
        [(⟨"s0", 0, 5, "intro about cats", "t1"⟩, 2)]).results.map
      (fun r => r.relevance_score)) = [some (-100)] ∧ ((-100 : ℚ) < 0) := by
  constructor
  · simp only [semanticSearch, scoredResult, List.map_cons, List.map_nil,
      if_neg (by simp : ¬([(((⟨"s0", 0, 5, "intro about cats", "t1"⟩ : StoredSegment), (2 : ℚ)))] = []))]
    norm_num [round2, pyRound]
  · norm_num

/-- Claim C1, amended: each SEMANTIC result carries
`relevance_score = round((1 - distance) * 100, 2)` with no clamping; the
scores are monotonically non-increasing in the rank order whenever the
backing store returns its distances in non-decreasing order, and they lie in
`[0, 100]` whenever every distance lies in `[0, 1]`. -/
theorem semantic_relevance_scores (question : String) (tid : Option String)
    (qres : List (StoredSegment × ℚ)) :
    ((semanticSearch question tid qres).results.map (fun r => r.relevance_score)
        = qres.map (fun p => some (round2 ((1 - p.2) * 100)))) ∧
    (List.Pairwise (fun p q : StoredSegment × ℚ => p.2 ≤ q.2) qres →
      List.Pairwise (fun a b : Option ℚ => ∀ x y, a = some x → b = some y → y ≤ x)
        ((semanticSearch question tid qres).results.map (fun r => r.relevance_score))) ∧
    ((∀ p ∈ qres, 0 ≤ p.2 ∧ p.2 ≤ 1) →
      ∀ r ∈ (semanticSearch question tid qres).results, ∀ x,
        r.relevance_score = some x → 0 ≤ x ∧ x ≤ 100) := by
  have hres := semanticSearch_results question tid qres
  refine ⟨?_, ?_, ?_⟩
  · rw [hres, List.map_map]
    rfl
  · intro hsorted
    rw [hres, List.map_map, List.pairwise_map]
    refine hsorted.imp ?_
    intro p q hpq x y hx hy
    simp only [Function.comp, scoredResult, Option.some.injEq] at hx hy
    subst hx; subst hy
    exact round2_mono (by linarith)
  · intro hb r hr x hx
    rw [hres] at hr
    rcases List.mem_map.1 hr with ⟨p, hp, rfl⟩
    rcases hb p hp with ⟨h0, h1⟩
    simp only [scoredResult, Option.some.injEq] at hx
    subst hx
    constructor
    · exact round2_nonneg (by linarith)
    · exact round2_le_hundred (by linarith)

/-- Witness for `semantic_relevance_scores` at a two-element reply with
sorted distances inside `[0, 1]`: both hypotheses hold and the instantiated
conclusions follow. -/
theorem semantic_relevance_scores_witness :
    (List.Pairwise (fun p q : StoredSegment × ℚ => p.2 ≤ q.2)
        [((⟨"s0", 0, 5, "a", "t"⟩ : StoredSegment), (0 : ℚ)),
         ((⟨"s1", 5, 10, "b", "t"⟩ : StoredSegment), (1 : ℚ))] ∧
      (∀ p ∈ [((⟨"s0", 0, 5, "a", "t"⟩ : StoredSegment), (0 : ℚ)),
         ((⟨"s1", 5, 10, "b", "t"⟩ : StoredSegment), (1 : ℚ))], 0 ≤ p.2 ∧ p.2 ≤ 1)) ∧
    (∀ r ∈ (semanticSearch "q" none
        [((⟨"s0", 0, 5, "a", "t"⟩ : StoredSegment), (0 : ℚ)),
         ((⟨"s1", 5, 10, "b", "t"⟩ : StoredSegment), (1 : ℚ))]).results, ∀ x,
      r.relevance_score = some x → 0 ≤ x ∧ x ≤ 100) := by
  refine ⟨⟨?_, ?_⟩, ?_⟩
  · decide
  · decide
  · exact (semantic_relevance_scores "q" none
      [((⟨"s0", 0, 5, "a", "t"⟩ : StoredSegment), (0 : ℚ)),
       ((⟨"s1", 5, 10, "b", "t"⟩ : StoredSegment), (1 : ℚ))]).2.2 (by decide)

/-! ## C2, C10: keyword search -/

/-- The keyword matches: stored segments of the requested scope whose text
contains the question case-insensitively, in storage order. -/
def kwMatches (question : String) (tid : Option String)
    (store : List StoredSegment) : List StoredSegment :=
  (whereGet store tid).filter (fun s => lowerContains question s.text)

/-- The truncation applied by `_keyword_search`: Python's `if top_k:` guard
followed by `[:top_k]`. -/
def kwTrunc (top_k : Option ℤ) (l : List StoredSegment) : List StoredSegment :=
  match top_k with
  | some k => if k ≠ 0 then pySliceTo k l else l
  | none => l

theorem pySliceTo_nil (k : ℤ) : pySliceTo k ([] : List StoredSegment) = [] := by
  unfold pySliceTo; split_ifs <;> simp

theorem pySliceTo_sublist (k : ℤ) (l : List StoredSegment) :
    (pySliceTo k l).Sublist l := by
  unfold pySliceTo; split_ifs <;> exact List.take_sublist _ _

theorem kwTrunc_nil (top_k : Option ℤ) : kwTrunc top_k [] = [] := by
  unfold kwTrunc
  cases top_k with
  | none => rfl
  | some k => by_cases h : k ≠ 0 <;> simp [h, pySliceTo_nil]

theorem kwTrunc_some (k : ℤ) (l : List StoredSegment) :
    kwTrunc (some k) l = if k ≠ 0 then pySliceTo k l else l := rfl

theorem kwTrunc_sublist (top_k : Option ℤ) (l : List StoredSegment) :
    (kwTrunc top_k l).Sublist l := by
  cases top_k with
  | none => exact List.Sublist.refl l
  | some k =>
    rw [kwTrunc_some]
    by_cases h : k ≠ 0
    · rw [if_pos h]; exact pySliceTo_sublist k l
    · rw [if_neg h]

theorem whereGet_sublist (store : List StoredSegment) (tid : Option String) :
    (whereGet store tid).Sublist store := by
  unfold whereGet
  cases tid with
  | none => exact List.Sublist.refl store
  | some t =>
    by_cases h : t.isEmpty <;> simp [h, List.filter_sublist]

/-- Characterization of the keyword results: the early-return branches for an
empty scope or an empty match set coincide with filtering and truncating. -/
theorem keywordSearch_results (question : String) (tid : Option String)
    (top_k : Option ℤ) (store : List StoredSegment) :
    (keywordSearch question tid top_k store).results =
      (kwTrunc top_k (kwMatches question tid store)).map toQueryResult := by
  unfold keywordSearch kwMatches
  by_cases h1 : whereGet store tid = []
  · rw [if_pos h1, h1]
    simp [emptyKeywordResponse, kwTrunc_nil]
  · rw [if_neg h1]
    by_cases h2 : (whereGet store tid).filter (fun s => lowerContains question s.text) = []
    · rw [if_pos h2, h2]
      simp [emptyKeywordResponse, kwTrunc_nil]
    · rw [if_neg h2]
      rfl

/-- Counterexample to claim C2 as stated: with `top_k = 0` provided and one
matching segment, the results are not truncated to length `top_k = 0` — the
`if top_k:` guard treats `0` as absent. -/
theorem keyword_topk_zero_cex :
    (keywordSearch "cats" (some "t1") (some 0)
        [⟨"s0", 0, 5, "intro about cats", "t1"⟩]).results.length = 1 ∧
    ¬((keywordSearch "cats" (some "t1") (some 0)
        [⟨"s0", 0, 5, "intro about cats", "t1"⟩]).results.length ≤ 0) := by
  constructor
  · decide
  · decide

/-- Claim C2, amended: every keyword result arises from a stored segment
whose text contains the question case-insensitively; results appear in
storage order (a sublist of the scoped store); every `relevance_score` is
null; the match list is truncated to `top_k` when `top_k` is provided *and
positive* (Python truthiness: `top_k = 0` disables truncation); and an empty
match set yields an empty result list rather than an error. -/
theorem keyword_search_spec (question : String) (tid : Option String)
    (top_k : Option ℤ) (store : List StoredSegment) :
    (∀ r ∈ (keywordSearch question tid top_k store).results,
      ∃ s ∈ store, r = toQueryResult s ∧ lowerContains question s.text = true) ∧
    ((keywordSearch question tid top_k store).results.Sublist
      ((whereGet store tid).map toQueryResult)) ∧
    (∀ r ∈ (keywordSearch question tid top_k store).results,
      r.relevance_score = none) ∧
    (∀ k : ℤ, top_k = some k → 0 < k →
      (keywordSearch question tid top_k store).results.length ≤ k.toNat) ∧
    ((∀ s ∈ whereGet store tid, lowerContains question s.text = false) →
      (keywordSearch question tid top_k store).results = []) := by
  have hchar := keywordSearch_results question tid top_k store
  have hmem : ∀ r ∈ (keywordSearch question tid top_k store).results,
      ∃ s ∈ store, r = toQueryResult s ∧ lowerContains question s.text = true := by
    intro r hr
    rw [hchar] at hr
    rcases List.mem_map.1 hr with ⟨s, hs, rfl⟩
    have hs2 : s ∈ kwMatches question tid store := (kwTrunc_sublist top_k _).subset hs
    rcases List.mem_filter.1 hs2 with ⟨hs3, hs4⟩
    exact ⟨s, (whereGet_sublist store tid).subset hs3, rfl, hs4⟩
  refine ⟨hmem, ?_, ?_, ?_, ?_⟩
  · rw [hchar]
    exact ((kwTrunc_sublist top_k _).map toQueryResult).trans
      ((List.filter_sublist _).map toQueryResult)
  · intro r hr
    rcases hmem r hr with ⟨s, _, rfl, _⟩
    rfl
  · intro k hk hkpos
    rw [hchar, hk, List.length_map, kwTrunc_some, if_pos (by omega : k ≠ 0)]
    unfold pySliceTo
    rw [if_pos (le_of_lt hkpos)]
    simp
  · intro hnone
    rw [hchar]
    have : kwMatches question tid store = [] := by
      unfold kwMatches
      rw [List.filter_eq_nil_iff]
      intro s hs
      simp [hnone s hs]
    rw [this, kwTrunc_nil]
    rfl

/-- Witness for `keyword_search_spec`: at `top_k = 1` over a two-match store
the results are cut to one; over a store with no match the results are
empty. -/
theorem keyword_search_spec_witness :
    ((0 : ℤ) < 1 ∧
      (keywordSearch "cats" (some "t1") (some 1)
        [⟨"s0", 0, 5, "intro about cats", "t1"⟩,
         ⟨"s1", 5, 10, "more cats here", "t1"⟩]).results.length ≤ (1 : ℤ).toNat) ∧
    (keywordSearch "cats" (some "t1") (some 5)
        [⟨"s0", 0, 5, "about dogs", "t1"⟩]).results = [] := by
  refine ⟨⟨by decide, ?_⟩, ?_⟩
  · exact (keyword_search_spec "cats" (some "t1") (some 1)
      [⟨"s0", 0, 5, "intro about cats", "t1"⟩,
       ⟨"s1", 5, 10, "more cats here", "t1"⟩]).2.2.2.1 1 rfl (by decide)
  · exact (keyword_search_spec "cats" (some "t1") (some 5)
      [⟨"s0", 0, 5, "about dogs", "t1"⟩]).2.2.2.2 (by decide)

/-- Claim C10: dispatching a keyword query with `top_k = 0` returns every
matching segment — the truthiness guard `if top_k:` skips truncation — rather
than an empty (or truncated) result list. -/
theorem keyword_topk_zero_no_truncation (question : String) (tid : Option String)
    (store : List StoredSegment) (qres : List (StoredSegment × ℚ))
    (gen : String → List QueryResult → LlmAnswer) :
    (queryTranscript question tid (some 0) SearchType.KEYWORD store qres gen).results =
      ((whereGet store tid).filter (fun s => lowerContains question s.text)).map
        toQueryResult := by
  show (keywordSearch question tid (some 0) store).results = _
  rw [keywordSearch_results]
  unfold kwTrunc kwMatches
  simp

/-! ## C3: LLM strategy short-circuit on an empty transcript -/

/-- Claim C3: when no segments are stored for the requested transcript, the
LLM strategy returns the fixed `not_addressed=true`, `"No transcript found."`,
`model_id="none"`, empty-results response; the result does not depend on the
generation capability `gen`, which is therefore never consulted. -/
theorem llm_search_empty_transcript (question : String) (tid : Option String)
    (store : List StoredSegment) (qres : List (StoredSegment × ℚ))
    (gen : String → List QueryResult → LlmAnswer)
    (h : whereGet store tid = []) :
    llmSearch question tid store qres gen =
      { question := question, transcript_id := tid,
        search_type := SearchType.LLM, results := [],
        summary := some "No transcript found.",
        not_addressed := some true,
        model_id := some "none" } := by
  unfold llmSearch
  rw [h]
  simp

/-- Witness for `llm_search_empty_transcript`: a store holding only another
transcript's segments, with a generator that would be observable if called. -/
theorem llm_search_empty_transcript_witness :
    whereGet [(⟨"s0", 0, 5, "intro about cats", "other"⟩ : StoredSegment)]
        (some "t1") = [] ∧
    llmSearch "cats" (some "t1")
        [(⟨"s0", 0, 5, "intro about cats", "other"⟩ : StoredSegment)] []
        (fun _ _ => { summary := "SHOULD NOT APPEAR", not_addressed := false,
                      model_id := some "m" }) =
      { question := "cats", transcript_id := some "t1",
        search_type := SearchType.LLM, results := [],
        summary := some "No transcript found.",
        not_addressed := some true,
        model_id := some "none" } := by
  refine ⟨by decide, ?_⟩
  exact llm_search_empty_transcript "cats" (some "t1")
    [(⟨"s0", 0, 5, "intro about cats", "other"⟩ : StoredSegment)] []
    (fun _ _ => { summary := "SHOULD NOT APPEAR", not_addressed := false,
                  model_id := some "m" }) (by decide)

/-! ## C4: parser output is timestamp-grounded -/

theorem head_start_le_getLast_end (segments : List SynSegment) (hne : segments ≠ [])
    (hsort : segments.Pairwise (fun a b => a.start_time ≤ b.start_time))
    (hwf : ∀ s ∈ segments, s.start_time ≤ s.end_time) :
    (segments.head hne).start_time ≤ (segments.getLast hne).end_time := by
  have h1 := List.getLast_mem hne
  rcases segments with _ | ⟨s0, rest⟩
  · exact absurd rfl hne
  · simp only [List.head_cons]
    rcases List.mem_cons.1 h1 with heq | hmem
    · rw [heq]
      exact hwf s0 (List.mem_cons_self s0 rest)
    · exact le_trans ((List.pairwise_cons.1 hsort).1 _ hmem) (hwf _ h1)

/-- Claim C4: for the segment lists the synthesizer actually receives —
non-empty, sorted by start time (search.py line 314), with well-formed
segments (`start ≤ end`) — every parsed answer point's timestamp lies within
`[segments[0].start_time, segments[-1].end_time]`; bullets outside this range
were dropped by the validation filter, and the fallback point reuses the
first segment's start time. -/
theorem parser_points_grounded (response question : String)
    (segments : List SynSegment) (mid : Option String)
    (hne : segments ≠ [])
    (hsort : segments.Pairwise (fun a b => a.start_time ≤ b.start_time))
    (hwf : ∀ s ∈ segments, s.start_time ≤ s.end_time) :
    ∀ p ∈ (parseResponse response question segments mid).points,
      (segments.head hne).start_time ≤ p.timestamp_seconds ∧
        p.timestamp_seconds ≤ (segments.getLast hne).end_time := by
  intro p hp
  have hkey := head_start_le_getLast_end segments hne hsort hwf
  have hhead := List.head?_eq_head hne
  have hlast := List.getLast?_eq_getLast_of_ne_nil hne
  have hp2 : p ∈ parsePoints (pyStripChars response.toList) segments := hp
  have hfilter : ∀ q ∈ (rawKeyPoints (pyStripChars response.toList)).filter
      (fun q => inSegmentRange segments q.2),
      (segments.head hne).start_time ≤ q.2 ∧ q.2 ≤ (segments.getLast hne).end_time := by
    intro q hq
    have hrange := (List.mem_filter.1 hq).2
    unfold inSegmentRange at hrange
    rw [hhead, hlast] at hrange
    simp only [Bool.and_eq_true, decide_eq_true_eq] at hrange
    exact hrange
  simp only [parsePoints] at hp2
  split at hp2
  · rcases hsplit : segments.head? with _ | s0
    · rw [hhead] at hsplit; exact absurd hsplit (by simp)
    · rw [hsplit] at hp2
      rcases List.mem_singleton.1 hp2 with rfl
      rw [hhead] at hsplit
      have : s0 = segments.head hne := by
        injection hsplit with h
        exact h.symm
      subst this
      exact ⟨le_refl _, hkey⟩
  · rcases List.mem_map.1 hp2 with ⟨q, hq, rfl⟩
    exact hfilter q hq

/-- Witness for `parser_points_grounded`: the fallback point of an
unstructured response over two sorted segments stays within `[0, 10]`. -/
theorem parser_points_grounded_witness :
    ([(⟨0, 5, "intro about cats"⟩ : SynSegment), ⟨5, 10, "discussion of dogs"⟩] ≠ []) ∧
    ∀ p ∈ (parseResponse "no structure here" "cats"
        [⟨0, 5, "intro about cats"⟩, ⟨5, 10, "discussion of dogs"⟩] none).points,
      (0 : ℚ) ≤ p.timestamp_seconds ∧ p.timestamp_seconds ≤ 10 := by
  refine ⟨by decide, ?_⟩
  intro p hp
  exact parser_points_grounded "no structure here" "cats"
    [⟨0, 5, "intro about cats"⟩, ⟨5, 10, "discussion of dogs"⟩] none (by decide)
    (by decide) (by decide) p hp

/-! ## C5: fallback point on the stub-generator scenario -/

/-- Claim C5, evaluated on the spec's scenario: the stub output
`"SUMMARY:\nCats are discussed.\nCOMPLETENESS:\nCOMPLETE"` over the
cats/dogs segments yields the injected fallback point at `0` and
`not_addressed = false` as claimed, but the summary is
`"Cats are discussed. COMPLETENESS: COMPLETE"`, not `"Cats are discussed."`:
the SUMMARY regex of synthesis.py stops its group only at `KEY POINTS:`
(absent here), so the COMPLETENESS block is swallowed into the summary.  The
sibling parser in services/llms.py uses the lookahead `(?=COMPLETENESS:|$)`
and would return `"Cats are discussed."`. -/
theorem parser_stub_scenario :
    parseResponse "SUMMARY:\nCats are discussed.\nCOMPLETENESS:\nCOMPLETE" "cats"
        [⟨0, 5, "intro about cats"⟩, ⟨5, 10, "discussion of dogs"⟩]
        (some "tinyllama") =
      { summary := "Cats are discussed. COMPLETENESS: COMPLETE",
        points := [{ content := "Relevant information found in the transcript",
                     timestamp_seconds := 0 }],
        not_addressed := false, model_id := some "tinyllama" } ∧
    ("Cats are discussed. COMPLETENESS: COMPLETE" ≠ "Cats are discussed.") := by
  constructor
  · decide
  · decide

/-! ## C8: unknown strategy tag -/

/-- Claim C8, evaluated: the dispatcher of services/search.py routes every
unknown tag (here VISUAL and VISUAL_SEMANTIC) to keyword search and is a
total function, but the dispatcher of services/question_answering.py raises a
`TypeError` on its fallback path — the call
`self._keyword_search(question, transcript_id, top_k)` passes `top_k` to a
method accepting only `(question, transcript_id)`. -/
theorem unknown_strategy_dispatch :
    (∀ question tid top_k store qres gen,
      queryTranscript question tid top_k SearchType.VISUAL store qres gen =
          keywordSearch question tid top_k store ∧
        queryTranscript question tid top_k SearchType.VISUAL_SEMANTIC store qres gen =
          keywordSearch question tid top_k store) ∧
    qaQueryTranscript "any question" (some "t1") (some 5) "visual"
        [⟨"s0", 0, 5, "intro about cats", "t1"⟩] [] =
      Except.error
        "TypeError: _keyword_search takes 3 positional arguments but 4 were given" := by
  constructor
  · intro question tid top_k store qres gen
    exact ⟨rfl, rfl⟩
  · rfl

/-! ## C9: keyword result internal consistency -/

/-- Claim C9, evaluated: in question_answering.py's keyword search the
metadata index runs over the *filtered* document list, so on a store whose
second segment is the only match the returned result pairs the matching text
`"discussion of cats"` (stored under `"s1"`) with the metadata of `"s0"`,
whose stored document is `"intro about birds"` — text and metadata come from
different segments.  (The version in services/search.py keeps track of the
original indices and is consistent.) -/
theorem qa_keyword_metadata_misaligned :
    qaKeywordSearch "cats" (some "t1")
        [⟨"s0", 0, 5, "intro about birds", "t1"⟩,
         ⟨"s1", 5, 10, "discussion of cats", "t1"⟩] =
      [{ segment_id := "s0", start_time := 0, end_time := 5,
         text := "discussion of cats", transcript_id := "t1",
         relevance_score := none }] ∧
    (([(⟨"s0", 0, 5, "intro about birds", "t1"⟩ : StoredSegment),
       ⟨"s1", 5, 10, "discussion of cats", "t1"⟩].find?
        (fun s => s.id == "s0")).map (fun s => s.text) = some "intro about birds") ∧
    ("discussion of cats" ≠ "intro about birds") := by
  refine ⟨by decide, by decide, by decide⟩

/-! ## C6, C7: model registry invariants -/

theorem setLoaded_ids (m : List ModelEntry) (a : String) (b : Bool) :
    (setLoaded m a b).map (fun e => e.id) = m.map (fun e => e.id) := by
  induction m with
  | nil => rfl
  | cons e es ih =>
    simp only [setLoaded, List.map_cons] at ih ⊢
    by_cases h : e.id = a
    · rw [if_pos h, ih]
    · rw [if_neg h, ih]

theorem mem_setLoaded {m : List ModelEntry} {a : String} {b : Bool} {x : ModelEntry}
    (hx : x ∈ setLoaded m a b) :
    ∃ e ∈ m, x.id = e.id ∧ x.requires_gpu = e.requires_gpu ∧
      ((e.id = a ∧ x.loaded = b) ∨ (¬e.id = a ∧ x.loaded = e.loaded)) := by
  rcases List.mem_map.1 hx with ⟨e, he, rfl⟩
  refine ⟨e, he, ?_, ?_, ?_⟩
  · by_cases h : e.id = a
    · rw [if_pos h]
    · rw [if_neg h]
  · by_cases h : e.id = a
    · rw [if_pos h]
    · rw [if_neg h]
  · by_cases h : e.id = a
    · exact Or.inl ⟨h, by rw [if_pos h]⟩
    · exact Or.inr ⟨h, by rw [if_neg h]⟩

theorem unload_has_gpu (s : RegistryState) :
    (unloadActiveModel s).has_gpu = s.has_gpu := by
  unfold unloadActiveModel; split <;> rfl

theorem no_loaded_after_unload (s : RegistryState)
    (h3 : ∀ e ∈ s.models, e.loaded = true → s.active_model_id = some e.id) :
    ∀ x ∈ (unloadActiveModel s).models, x.loaded = false := by
  intro x hx
  unfold unloadActiveModel at hx
  split at hx
  · rename_i ha
    cases hload : x.loaded
    · rfl
    · have := h3 x hx hload
      rw [ha] at this
      exact Option.noConfusion this
  · rename_i aid ha
    simp only at hx
    rcases mem_setLoaded hx with ⟨e0, he0, hid, _, hc⟩
    rcases hc with ⟨_, hl⟩ | ⟨hne, hl⟩
    · exact hl
    · cases hload : e0.loaded
      · rw [hl, hload]
      · have := h3 e0 he0 hload
        rw [ha] at this
        exact absurd (Option.some.inj this).symm hne

theorem regInv_unload {s : RegistryState} (hinv : RegInv s) :
    RegInv (unloadActiveModel s) := by
  obtain ⟨h1, h2, h3, h4⟩ := hinv
  have hnol := no_loaded_after_unload s h3
  unfold unloadActiveModel at hnol ⊢
  split at hnol
  · exact ⟨h1, h2, h3, h4⟩
  · rename_i aid ha
    refine ⟨?_, ?_, ?_, ?_⟩
    · unfold registeredIds at h1 ⊢
      simp only
      rw [setLoaded_ids]
      exact h1
    · intro e he
      simp only at he
      rcases mem_setLoaded he with ⟨e0, he0, hid, _, _⟩
      rw [hid]
      exact h2 e0 he0
    · intro e he hl
      have := hnol e he
      rw [hl] at this
      exact Bool.noConfusion this
    · intro hgpu e he
      simp only at he hgpu
      rcases mem_setLoaded he with ⟨e0, he0, _, hreq, _⟩
      rw [hreq]
      exact h4 hgpu e0 he0

/-- Setting only the active id preserves the invariant when every loaded
entry already has id `mid`. -/
theorem regInv_set_active {t : RegistryState} (ht : RegInv t) (mid : String)
    (htl : ∀ x ∈ t.models, x.loaded = true → x.id = mid) :
    RegInv { t with active_model_id := some mid } := by
  obtain ⟨t1, t2, t3, t4⟩ := ht
  refine ⟨t1, t2, ?_, t4⟩
  intro x hx hl
  show some mid = some x.id
  rw [htl x hx hl]

/-- Marking `mid` loaded and active preserves the invariant when every
already-loaded entry has id `mid`. -/
theorem regInv_load_update {t : RegistryState} (ht : RegInv t) (mid : String)
    (htl : ∀ x ∈ t.models, x.loaded = true → x.id = mid) :
    RegInv
      { t with models := setLoaded t.models mid true, active_model_id := some mid } := by
  obtain ⟨t1, t2, t3, t4⟩ := ht
  refine ⟨?_, ?_, ?_, ?_⟩
  · unfold registeredIds at t1 ⊢
    simp only
    rw [setLoaded_ids]
    exact t1
  · intro x hx
    simp only at hx
    rcases mem_setLoaded hx with ⟨e0, he0, hid, _, _⟩
    rw [hid]
    exact t2 e0 he0
  · intro x hx hl
    simp only at hx
    rcases mem_setLoaded hx with ⟨e0, he0, hid, _, hc⟩
    show some mid = some x.id
    rcases hc with ⟨hea, _⟩ | ⟨hne, hxl⟩
    · rw [hid, hea]
    · rw [hxl] at hl
      rw [hid, htl e0 he0 hl]
  · intro hgpu x hx
    simp only at hx hgpu
    rcases mem_setLoaded hx with ⟨e0, he0, _, hreq, _⟩
    rw [hreq]
    exact t4 hgpu e0 he0

theorem regInv_loadUnloadStep {s : RegistryState} (hinv : RegInv s)
    (mid : String) : RegInv (loadUnloadStep s mid) := by
  unfold loadUnloadStep
  split
  · split
    · exact regInv_unload hinv
    · exact hinv
  · exact hinv

/-- After the conditional unload step, every entry that is still loaded is
named `mid`. -/
theorem loaded_id_after_step {s : RegistryState} (hinv : RegInv s)
    (mid : String) :
    ∀ x ∈ (loadUnloadStep s mid).models, x.loaded = true → x.id = mid := by
  obtain ⟨h1, h2, h3, h4⟩ := hinv
  unfold loadUnloadStep
  split
  · rename_i aid ha
    split
    · intro x hx hl
      have := no_loaded_after_unload s h3 x hx
      rw [hl] at this
      exact Bool.noConfusion this
    · rename_i hcond
      intro x hx hl
      have hx2 := h3 x hx hl
      rw [ha] at hx2
      have hxid : x.id = aid := (Option.some.inj hx2).symm
      rcases not_and_or.1 hcond with hEmp | hMid
      · rw [not_not] at hEmp
        have := h2 x hx
        rw [hxid] at this
        rw [hEmp] at this
        exact Bool.noConfusion this
      · rw [not_not] at hMid
        rw [hxid, hMid]
  · rename_i ha
    intro x hx hl
    have := h3 x hx hl
    rw [ha] at this
    exact Option.noConfusion this

theorem regInv_load {s : RegistryState} (hinv : RegInv s) (mid : String)
    (fetchOk : Bool) : RegInv (loadModel s mid fetchOk).2 := by
  unfold loadModel
  cases hl : lookupEntry s mid with
  | none => exact hinv
  | some e =>
    simp only
    have ht := regInv_loadUnloadStep hinv mid
    have htl := loaded_id_after_step hinv mid
    by_cases hld : e.loaded = true
    · rw [if_pos hld]
      exact regInv_set_active ht mid htl
    · rw [if_neg hld]
      by_cases hf : fetchOk = true
      · rw [if_pos hf]
        exact regInv_load_update ht mid htl
      · rw [if_neg hf]
        exact ht

/-- A registry state with no loaded entry satisfies the invariant as soon as
its catalog is well-formed. -/
theorem regInv_mk_fresh (models : List ModelEntry) (active : Option String)
    (hg : Bool)
    (h1 : (models.map (fun e => e.id)).Nodup)
    (h2 : ∀ e ∈ models, e.id.isEmpty = false)
    (h3 : ∀ e ∈ models, e.loaded = false)
    (h4 : hg = false → ∀ e ∈ models, e.requires_gpu = false) :
    RegInv { models := models, active_model_id := active, has_gpu := hg } :=
  ⟨h1, h2, fun e he hl => absurd ((h3 e he).symm.trans hl) (by decide), h4⟩

theorem regInv_init (has_gpu hf_token : Bool) (default_llm : String)
    (fetchOk : Bool) :
    RegInv (initState has_gpu hf_token default_llm fetchOk) := by
  cases has_gpu <;> cases hf_token <;>
    · simp only [initState]
      split
      · exact regInv_load
          (regInv_mk_fresh _ _ _ (by decide) (by decide) (by decide) (by decide)) _ _
      · exact regInv_mk_fresh _ _ _ (by decide) (by decide) (by decide) (by decide)

theorem reachable_regInv {s : RegistryState} (h : Reachable s) : RegInv s := by
  induction h with
  | init a b c d => exact regInv_init a b c d
  | select s mid f hr ih => exact regInv_load ih mid f
  | unload s hr ih => exact regInv_unload ih

theorem countP_loaded_le_one (l : List ModelEntry) (a : String)
    (hnd : (l.map (fun e => e.id)).Nodup)
    (h : ∀ e ∈ l, e.loaded = true → e.id = a) :
    l.countP (fun e => e.loaded) ≤ 1 := by
  induction l with
  | nil => simp
  | cons e es ih =>
    rw [List.map_cons, List.nodup_cons] at hnd
    rw [List.countP_cons]
    by_cases hb : e.loaded = true
    · have hz : es.countP (fun e => e.loaded) = 0 := by
        rw [List.countP_eq_zero]
        intro x hx hxl
        have hxe : x.id = e.id := by
          rw [h x (List.mem_cons_of_mem e hx) hxl,
            h e (List.mem_cons_self e es) hb]
        exact hnd.1 (hxe ▸ List.mem_map_of_mem (fun e => e.id) hx)
      simp [hb, hz]
    · have hle := ih hnd.2 (fun x hx hl => h x (List.mem_cons_of_mem e hx) hl)
      simp [hb]
      omega

/-- Claim C6: across initialization and any sequence of `select_model` and
`unload_active_model` operations, at most one registry descriptor reports
`loaded = true` at any observation point. -/
theorem registry_at_most_one_loaded (s : RegistryState) (h : Reachable s) :
    s.models.countP (fun e => e.loaded) ≤ 1 := by
  obtain ⟨h1, h2, h3, h4⟩ := reachable_regInv h
  cases hact : s.active_model_id with
  | none =>
    have hz : s.models.countP (fun e => e.loaded) = 0 := by
      rw [List.countP_eq_zero]
      intro x hx hxl
      have := h3 x hx hxl
      rw [hact] at this
      exact Option.noConfusion this
    omega
  | some a =>
    refine countP_loaded_le_one s.models a h1 ?_
    intro e he hl
    have hx := h3 e he hl
    rw [hact] at hx
    exact (Option.some.inj hx).symm

/-- Witness for `registry_at_most_one_loaded` on the spec's
`select(A); select(B); select(A)` scenario after initialization. -/
theorem registry_at_most_one_loaded_witness :
    (loadModel (loadModel (loadModel (initState false false "tinyllama" true)
        "qwen-2.5" true).2 "phi-2" true).2 "qwen-2.5" true).2.models.countP
      (fun e => e.loaded) ≤ 1 :=
  registry_at_most_one_loaded _
    (Reachable.select _ "qwen-2.5" true
      (Reachable.select _ "phi-2" true
        (Reachable.select _ "qwen-2.5" true
          (Reachable.init false false "tinyllama" true))))

/-- Claim C7: in a reachable registry without a GPU, no registered descriptor
requires a GPU, so selecting a GPU-requiring model id (any id whose
registered descriptors would all require a GPU — necessarily unregistered)
returns `false` without raising, loads nothing (the model is not downgraded
to a CPU load), and leaves the whole state, in particular the active model
id, unchanged. -/
theorem gpu_model_without_gpu_no_switch (s : RegistryState) (h : Reachable s)
    (hgpu : s.has_gpu = false) (mid : String)
    (hreq : ∀ e ∈ s.models, e.id = mid → e.requires_gpu = true)
    (fetchOk : Bool) :
    (loadModel s mid fetchOk).1 = false ∧
    (loadModel s mid fetchOk).2 = s ∧
    (loadModel s mid fetchOk).2.active_model_id = s.active_model_id := by
  obtain ⟨h1, h2, h3, h4⟩ := reachable_regInv h
  have hnone : lookupEntry s mid = none := by
    unfold lookupEntry
    rw [List.find?_eq_none]
    intro e he hbe
    have hid : e.id = mid := by simpa using hbe
    have := hreq e he hid
    rw [h4 hgpu e he] at this
    exact Bool.noConfusion this
  unfold loadModel
  rw [hnone]
  exact ⟨rfl, rfl, rfl⟩

/-- Witness for `gpu_model_without_gpu_no_switch`: selecting `"mistral-7b"`
(the catalog's only GPU-requiring model, unregistered without a GPU) on the
freshly initialized CPU-only registry. -/
theorem gpu_model_without_gpu_no_switch_witness :
    (loadModel (initState false false "tinyllama" true) "mistral-7b" true).1
        = false ∧
    (loadModel (initState false false "tinyllama" true) "mistral-7b" true).2.active_model_id
        = (initState false false "tinyllama" true).active_model_id := by
  have h := gpu_model_without_gpu_no_switch (initState false false "tinyllama" true)
    (Reachable.init false false "tinyllama" true) (by decide) "mistral-7b"
    (by decide) true
  exact ⟨h.1, h.2.2⟩

end VideoSearch
